import Mathlib

/-!
Verification of the DRO surgeon tool (dro_surgeon.py): a shallow embedding
of the DRO v2.0 stream decoder, the channel classifier, the Remove and
Isolate stream filters, the Dumper, and the pitch-shift calculator, with
theorems checking the natural-language specification against the code.

Bytes are modelled as `Nat` (file contents are lists of byte values);
Python byte indexing that can raise `IndexError` is modelled with an
explicit `Except` error, and Python slice reads (which clamp silently)
are modelled with `List.take` / `List.drop`.
-/

/-- The 8-byte magic tag `DBRAWOPL` (ASCII). -/
def magic : List Nat := [0x44, 0x42, 0x52, 0x41, 0x57, 0x4F, 0x50, 0x4C]

/-- Errors surfaced by the tools. `badMagic` and `unsupportedVersion` are
the explicit error returns of the Python code; `indexError` models an
uncaught Python `IndexError` / `struct.error` when a read runs past the
end of the buffer. -/
inductive DroErr
  | badMagic
  | unsupportedVersion
  | indexError
deriving DecidableEq, Repr

/-- The operator-offset to channel table from `get_channel_from_reg`
(`op_ch_map` in the source), with -1 marking invalid offsets. -/
def op_ch_map : List Int := [0, 1, 2, 0, 1, 2, -1, -1, 3, 4, 5, 3, 4, 5, -1, -1, 6, 7, 8, 6, 7, 8]

/-- Embedding of `get_channel_from_reg(bank, reg)`: the OPL3 channel for a
(bank, register) pair, or -1 when the register is not channel-specific. -/
def get_channel_from_reg (bank reg : Nat) : Int :=
  let base_ch : Int := if bank == 0 then 0 else 9
  if (0xA0 ≤ reg ∧ reg ≤ 0xA8) ∨ (0xB0 ≤ reg ∧ reg ≤ 0xB8) ∨ (0xC0 ≤ reg ∧ reg ≤ 0xC8) then
    base_ch + (reg &&& 0x0F : Nat)
  else if (0x20 ≤ reg ∧ reg ≤ 0x35) ∨ (0x40 ≤ reg ∧ reg ≤ 0x55) ∨ (0x60 ≤ reg ∧ reg ≤ 0x75) ∨
      (0x80 ≤ reg ∧ reg ≤ 0x95) ∨ (0xE0 ≤ reg ∧ reg ≤ 0xF5) then
    let offset := reg % 0x20
    if offset > 0x15 then -1
    else if offset < op_ch_map.length then
      let ch_offset := op_ch_map.getD offset 0
      if ch_offset ≠ -1 then base_ch + ch_offset else -1
    else -1
  else -1

/-- The five per-operator register ranges handled by the classifier. -/
def inOpRange (reg : Nat) : Prop :=
  (0x20 ≤ reg ∧ reg ≤ 0x35) ∨ (0x40 ≤ reg ∧ reg ≤ 0x55) ∨ (0x60 ≤ reg ∧ reg ≤ 0x75) ∨
    (0x80 ≤ reg ∧ reg ≤ 0x95) ∨ (0xE0 ≤ reg ∧ reg ≤ 0xF5)

instance (reg : Nat) : Decidable (inOpRange reg) := by unfold inOpRange; infer_instance

/-- The three per-voice register ranges (frequency low, key-on/block, feedback). -/
def inVoiceRange (reg : Nat) : Prop :=
  (0xA0 ≤ reg ∧ reg ≤ 0xA8) ∨ (0xB0 ≤ reg ∧ reg ≤ 0xB8) ∨ (0xC0 ≤ reg ∧ reg ≤ 0xC8)

instance (reg : Nat) : Decidable (inVoiceRange reg) := by unfold inVoiceRange; infer_instance

/-- The 22-entry operator table as written in the specification, with
`none` at the invalid offsets 0x06, 0x07, 0x0E, 0x0F. -/
def specOpTable : List (Option Nat) :=
  [some 0, some 1, some 2, some 0, some 1, some 2, none, none,
   some 3, some 4, some 5, some 3, some 4, some 5, none, none,
   some 6, some 7, some 8, some 6, some 7, some 8]

/-- Result of the classifier on an operator-range register, as the
specification describes it: base(bank) + table entry when the entry at
`reg mod 0x20` is valid, global sentinel (-1) otherwise. -/
def specOpResult (bank reg : Nat) : Int :=
  match specOpTable.getD (reg % 0x20) none with
  | some c => (if bank = 0 then 0 else 9) + (c : Int)
  | none => -1

/-- The little-endian 16-bit version major field at offset 8
(`struct.unpack` of `data[8:10]`). -/
def verOf (data : List Nat) : Nat := data.getD 8 0 + 256 * data.getD 9 0

/-- Embedding of the stream loop of `remove_channel`, over the remaining
byte list: keep delay tokens, keep writes with out-of-range codemap index,
drop writes whose channel equals the target, count the drops. A lone
trailing byte makes the Python loop read `data[i]` past the end of the
buffer, an uncaught `IndexError`. -/
def removeLoop (codemap : List Nat) (sd ld : Nat) (target : Int) :
    List Nat → Except DroErr (List Nat × Nat)
  | [] => .ok ([], 0)
  | [_] => .error .indexError
  | c :: v :: rest =>
    if c == sd || c == ld then
      (removeLoop codemap sd ld target rest).map fun p => (c :: v :: p.1, p.2)
    else if codemap.length ≤ (c &&& 0x7F) then
      (removeLoop codemap sd ld target rest).map fun p => (c :: v :: p.1, p.2)
    else if get_channel_from_reg ((c >>> 7) &&& 1) (codemap.getD (c &&& 0x7F) 0) == target then
      (removeLoop codemap sd ld target rest).map fun p => (p.1, p.2 + 1)
    else
      (removeLoop codemap sd ld target rest).map fun p => (c :: v :: p.1, p.2)

/-- Embedding of `remove_channel` on the raw buffer: magic and version
checks, header/codemap copy, then the stream loop. The output is the
written file together with the reported dropped-command count. -/
def remove_channel (data : List Nat) (target : Int) : Except DroErr (List Nat × Nat) :=
  if data.take 8 ≠ magic then .error .badMagic
  else if data.length < 10 then .error .indexError
  else if verOf data ≠ 2 then .error .unsupportedVersion
  else if data.length < 26 then .error .indexError
  else
    (removeLoop ((data.drop 26).take (data.getD 25 0)) (data.getD 23 0) (data.getD 24 0) target
        (data.drop (26 + data.getD 25 0))).map
      fun p => (data.take (26 + data.getD 25 0) ++ p.1, p.2)

/-- Embedding of the stream loop of `isolate_channel`: keep delay tokens,
keep writes with out-of-range index, always keep writes to register 0xBD,
keep writes whose channel equals the target or is the global sentinel,
drop and count the rest. -/
def isolateLoop (codemap : List Nat) (sd ld : Nat) (target : Int) :
    List Nat → Except DroErr (List Nat × Nat)
  | [] => .ok ([], 0)
  | [_] => .error .indexError
  | c :: v :: rest =>
    if c == sd || c == ld then
      (isolateLoop codemap sd ld target rest).map fun p => (c :: v :: p.1, p.2)
    else if codemap.length ≤ (c &&& 0x7F) then
      (isolateLoop codemap sd ld target rest).map fun p => (c :: v :: p.1, p.2)
    else if codemap.getD (c &&& 0x7F) 0 == 0xBD then
      (isolateLoop codemap sd ld target rest).map fun p => (c :: v :: p.1, p.2)
    else if get_channel_from_reg ((c >>> 7) &&& 1) (codemap.getD (c &&& 0x7F) 0) == target ||
        get_channel_from_reg ((c >>> 7) &&& 1) (codemap.getD (c &&& 0x7F) 0) == -1 then
      (isolateLoop codemap sd ld target rest).map fun p => (c :: v :: p.1, p.2)
    else
      (isolateLoop codemap sd ld target rest).map fun p => (p.1, p.2 + 1)

/-- Embedding of `isolate_channel` on the raw buffer. -/
def isolate_channel (data : List Nat) (target : Int) : Except DroErr (List Nat × Nat) :=
  if data.take 8 ≠ magic then .error .badMagic
  else if data.length < 10 then .error .indexError
  else if verOf data ≠ 2 then .error .unsupportedVersion
  else if data.length < 26 then .error .indexError
  else
    (isolateLoop ((data.drop 26).take (data.getD 25 0)) (data.getD 23 0) (data.getD 24 0) target
        (data.drop (26 + data.getD 25 0))).map
      fun p => (data.take (26 + data.getD 25 0) ++ p.1, p.2)

/-- A decoded stream token: each token covers exactly two stream bytes;
a byte equal to a delay opcode starts a delay token, anything else a
register write whose code byte packs bank (bit 7) and codemap index. -/
inductive Token
  | delay (code val : Nat)
  | write (code val : Nat)
deriving DecidableEq, Repr

/-- The two raw bytes of a token. -/
def tokBytes : Token → List Nat
  | .delay c v => [c, v]
  | .write c v => [c, v]

/-- Concatenated raw bytes of a token list. -/
def tokensBytes : List Token → List Nat
  | [] => []
  | t :: ts => tokBytes t ++ tokensBytes ts

/-- Decoding of the command stream region into tokens, as the shared
stream-decoder algorithm describes it: two bytes per token, delay opcodes
matched exactly and first; `none` on a lone trailing byte. -/
def tokenize (sd ld : Nat) : List Nat → Option (List Token)
  | [] => some []
  | [_] => none
  | c :: v :: rest =>
    (tokenize sd ld rest).map fun ts =>
      (if c == sd || c == ld then Token.delay c v else Token.write c v) :: ts

/-- Specification-side drop predicate of Remove(target): a token is
dropped exactly when it is a register write, its codemap index is in
range, and its classified channel equals the target. -/
def removeDrops (codemap : List Nat) (target : Int) : Token → Bool
  | .delay _ _ => false
  | .write c _ =>
    decide ((c &&& 0x7F) < codemap.length) &&
      (get_channel_from_reg ((c >>> 7) &&& 1) (codemap.getD (c &&& 0x7F) 0) == target)

/-- Specification-side keep predicate of Isolate(target): delay tokens and
out-of-range writes are kept; a resolved write is kept exactly when its
register is 0xBD, or its channel equals the target, or its channel is the
global sentinel. -/
def isolateKeeps (codemap : List Nat) (target : Int) : Token → Bool
  | .delay _ _ => true
  | .write c _ =>
    if codemap.length ≤ (c &&& 0x7F) then true
    else
      codemap.getD (c &&& 0x7F) 0 == 0xBD ||
        get_channel_from_reg ((c >>> 7) &&& 1) (codemap.getD (c &&& 0x7F) 0) == target ||
        get_channel_from_reg ((c >>> 7) &&& 1) (codemap.getD (c &&& 0x7F) 0) == -1

/-- Structured form of the description column printed by the Dumper: one
constructor per register family the code describes, carrying exactly the
fields the code formats; `noteStart` records whether the NOTE START marker
is appended (done exactly when the key-on bit is set). `idxError` is the
row printed for an out-of-range codemap index. -/
inductive DumpDesc
  | chB (ch : Nat) (keyOn : Bool) (blk fHigh : Nat) (noteStart : Bool)
  | chA (ch : Nat) (fLow : Nat)
  | chC (ch : Nat) (fb cnt : Nat)
  | opTVSKM (reg : Nat)
  | opLevel (reg level : Nat)
  | rhythm
  | idxError (idx : Nat)
deriving DecidableEq, Repr

/-- Description of a resolved register write in `dump_dro`, or `none` when
the code prints no row for this register (empty description). -/
def descOf (reg val : Nat) : Option DumpDesc :=
  if 0xB0 ≤ reg ∧ reg ≤ 0xB8 then
    some (.chB (reg - 0xB0) ((val &&& 0x20) != 0) ((val &&& 0x1C) >>> 2) (val &&& 0x03)
      ((val &&& 0x20) != 0))
  else if 0xA0 ≤ reg ∧ reg ≤ 0xA8 then some (.chA (reg - 0xA0) val)
  else if 0xC0 ≤ reg ∧ reg ≤ 0xC8 then some (.chC (reg - 0xC0) ((val &&& 0x0E) >>> 1) (val &&& 1))
  else if 0x20 ≤ reg ∧ reg ≤ 0x35 then some (.opTVSKM reg)
  else if 0x40 ≤ reg ∧ reg ≤ 0x55 then some (.opLevel reg (val &&& 0x3F))
  else if reg == 0xBD then some .rhythm
  else none

/-- One row printed by the Dumper: token byte offset, accumulated time,
bank, register (or the raw index for an out-of-range row), value,
description. -/
structure DumpRecord where
  offset : Nat
  time : Nat
  bank : Nat
  reg : Nat
  val : Nat
  desc : DumpDesc
deriving DecidableEq, Repr

/-- Embedding of the stream loop of `dump_dro`, carrying the byte cursor
(for offsets) and the accumulated time; returns the rows printed and the
final accumulated time. On every path that needs a second byte that is
not there, the code breaks out of the loop cleanly. -/
def dumpLoop (codemap : List Nat) (sd ld : Nat) : Nat → Nat → List Nat → List DumpRecord × Nat
  | _, time, [] => ([], time)
  | _, time, [_] => ([], time)
  | i, time, c :: v :: rest =>
    if c == sd then dumpLoop codemap sd ld (i + 2) (time + (v + 1)) rest
    else if c == ld then dumpLoop codemap sd ld (i + 2) (time + (v + 1) * 256) rest
    else
      let bank := (c >>> 7) &&& 1
      let idx := c &&& 0x7F
      if codemap.length ≤ idx then
        let r := dumpLoop codemap sd ld (i + 2) time rest
        (⟨i, time, bank, idx, v, .idxError idx⟩ :: r.1, r.2)
      else
        let reg := codemap.getD idx 0
        match descOf reg v with
        | some d =>
          let r := dumpLoop codemap sd ld (i + 2) time rest
          (⟨i, time, bank, reg, v, d⟩ :: r.1, r.2)
        | none => dumpLoop codemap sd ld (i + 2) time rest

/-- Embedding of `dump_dro` on the raw buffer. The code also reads the
minor version at bytes 10..11 before the version check, so a buffer
shorter than 12 bytes fails that read. -/
def dump_dro (data : List Nat) : Except DroErr (List DumpRecord × Nat) :=
  if data.take 8 ≠ magic then .error .badMagic
  else if data.length < 12 then .error .indexError
  else if verOf data ≠ 2 then .error .unsupportedVersion
  else if data.length < 26 then .error .indexError
  else
    .ok (dumpLoop ((data.drop 26).take (data.getD 25 0)) (data.getD 23 0) (data.getD 24 0)
      (26 + data.getD 25 0) 0 (data.drop (26 + data.getD 25 0)))

/-- The first normalization loop of `calc_shift`: while the f-number is at
least 1024 and the block is below 7, halve the f-number and raise the
block. The loop raises the block by one per iteration and stops once it
reaches 7, so it runs at most 7 times; `steps` is that bound, making the
recursion structural while computing exactly what the while loop does. -/
def fnum_up : Nat → Nat → Nat → Nat × Nat
  | 0, f, b => (f, b)
  | steps + 1, f, b =>
    if 1024 ≤ f ∧ b < 7 then fnum_up steps (f / 2) (b + 1) else (f, b)

/-- The second normalization loop of `calc_shift`: while the f-number is
below 512 and the block is above 0, double the f-number and lower the
block. The loop lowers the block by one per iteration and stops at 0, so
it runs at most (initial block) times; `steps` is that bound. -/
def fnum_down : Nat → Nat → Nat → Nat × Nat
  | 0, f, b => (f, b)
  | steps + 1, f, b =>
    if f < 512 ∧ 0 < b then fnum_down steps (f * 2) (b - 1) else (f, b)

/-- Embedding of `calc_shift(hex_a0, hex_b0, semitones)` specialised to
semitones = 0: the float multiplier `2 ** (0 / 12.0)` is exactly 1.0 and
`int(f * 1.0) = f` for the integer f-numbers involved, so the shifted
f-number equals the current one and only the normalization loops and the
repacking act. Returns the (new f-low, new combined) byte pair the code
prints. -/
def calc_shift0 (hex_a0 hex_b0 : Nat) : Nat × Nat :=
  let f_low := hex_a0
  let key_on := hex_b0 &&& 0x20
  let block := (hex_b0 &&& 0x1C) >>> 2
  let f_high := hex_b0 &&& 0x03
  let current_f_num := (f_high <<< 8) ||| f_low
  let new_f_num := current_f_num
  let p1 := fnum_up 7 new_f_num block
  let p2 := fnum_down p1.2 p1.1 p1.2
  let new_f_low := p2.1 &&& 0xFF
  let new_f_high := (p2.1 >>> 8) &&& 0x03
  (new_f_low, key_on ||| (p2.2 <<< 2) ||| new_f_high)

/-- A well-formed sample file: version 2.0, short delay 0xFF, long delay
0xFE, one-entry codemap [0xB0]; stream = write (code 0x00, value 0x30)
then a short delay of raw value 9. -/
def sampleFile : List Nat :=
  magic ++ [2, 0, 0, 0] ++ List.replicate 11 0 ++ [0xFF, 0xFE, 1, 0xB0] ++ [0x00, 0x30, 0xFF, 0x09]

/-- The file of the specification scenario for the Dumper: identical to
`sampleFile` except that the delay opcodes are 0x00 (short) and 0x01
(long), so the write code byte 0x00 collides with the short-delay opcode;
stream = (0x00, 0x30) then (0x00, 0x09). -/
def shadowFile : List Nat :=
  magic ++ [2, 0, 0, 0] ++ List.replicate 11 0 ++ [0x00, 0x01, 1, 0xB0] ++ [0x00, 0x30, 0x00, 0x09]

/-- A file whose command stream is a single lone byte (a truncated token). -/
def loneFile : List Nat :=
  magic ++ [2, 0, 0, 0] ++ List.replicate 11 0 ++ [0xFF, 0xFE, 1, 0xB0] ++ [0x42]

/-- A 26-byte buffer with valid magic and version whose declared codemap
length is 5, so the buffer ends before the declared codemap-end offset 31. -/
def truncFile : List Nat :=
  magic ++ [2, 0, 0, 0] ++ List.replicate 11 0 ++ [0xFF, 0xFE, 5]

/-- A second truncated buffer (codemap length 3, codemap-end offset 29). -/
def truncFile2 : List Nat :=
  magic ++ [2, 0, 0, 0] ++ List.replicate 11 0 ++ [0xFF, 0xFE, 3]

/-- A buffer with valid magic but version major 3. -/
def badVerFile : List Nat :=
  magic ++ [3, 0, 0, 0] ++ List.replicate 11 0 ++ [0xFF, 0xFE, 0]

set_option maxRecDepth 100000

/-- C1: for both banks and every register in one of the five per-operator
ranges, the classifier returns base(bank) + table entry at offset
`reg mod 0x20` when the 22-entry table entry is valid, and the global
sentinel when the offset is one of the invalid entries. -/
theorem get_channel_operator_table :
    ∀ bank < 2, ∀ reg < 256, inOpRange reg →
      get_channel_from_reg bank reg = specOpResult bank reg := by decide

theorem get_channel_operator_table_w :
    get_channel_from_reg 1 0x43 = specOpResult 1 0x43 :=
  get_channel_operator_table 1 (by decide) 0x43 (by decide) (by decide)

/-- C2: for both banks and every register in [0xA0,0xA8], [0xB0,0xB8] or
[0xC0,0xC8], the classifier returns base(bank) + (reg AND 0x0F) with
base(0) = 0 and base(1) = 9. -/
theorem get_channel_voice_regs :
    ∀ bank < 2, ∀ reg < 256, inVoiceRange reg →
      get_channel_from_reg bank reg =
        (if bank = 0 then (0 : Int) else 9) + (reg &&& 0x0F : Nat) := by decide

theorem get_channel_voice_regs_w : get_channel_from_reg 1 0xB3 = 12 :=
  (get_channel_voice_regs 1 (by decide) 0xB3 (by decide) (by decide)).trans (by decide)

/-- C10: for both banks and every register byte the classifier returns the
global sentinel or a channel in [0,17]; with bank 0 the channel is in
[0,8] and with bank 1 in [9,17]. -/
theorem get_channel_range :
    ∀ bank < 2, ∀ reg < 256,
      get_channel_from_reg bank reg = -1 ∨
        (bank = 0 ∧ 0 ≤ get_channel_from_reg bank reg ∧ get_channel_from_reg bank reg ≤ 8) ∨
        (bank = 1 ∧ 9 ≤ get_channel_from_reg bank reg ∧ get_channel_from_reg bank reg ≤ 17) := by
  decide

theorem get_channel_range_w :
    get_channel_from_reg 0 0x55 = -1 ∨
      (0 = 0 ∧ 0 ≤ get_channel_from_reg 0 0x55 ∧ get_channel_from_reg 0 0x55 ≤ 8) ∨
      (0 = 1 ∧ 9 ≤ get_channel_from_reg 0 0x55 ∧ get_channel_from_reg 0 0x55 ≤ 17) :=
  get_channel_range 0 (by decide) 0x55 (by decide)

/-- Decoding is lossless on the bytes: the bytes of the decoded tokens
concatenate back to the stream. -/
theorem tokenize_bytes (sd ld : Nat) :
    ∀ (rest : List Nat) (toks : List Token), tokenize sd ld rest = some toks →
      tokensBytes toks = rest
  | [], toks, h => by
    simp [tokenize] at h
    subst h
    rfl
  | [c], toks, h => by simp [tokenize] at h
  | c :: v :: rest, toks, h => by
    rw [tokenize] at h
    obtain ⟨ts, hts, rfl⟩ := Option.map_eq_some'.mp h
    have ih := tokenize_bytes sd ld rest ts hts
    by_cases hc : (c == sd || c == ld) = true <;>
      simp [hc, tokensBytes, tokBytes, ih]

/-- The Remove stream loop equals filtering the decoded tokens with the
complement of `removeDrops` and counting the dropped ones. -/
theorem removeLoop_spec (codemap : List Nat) (sd ld : Nat) (target : Int) :
    ∀ (rest : List Nat) (toks : List Token), tokenize sd ld rest = some toks →
      removeLoop codemap sd ld target rest =
        .ok (tokensBytes (toks.filter fun t => ! removeDrops codemap target t),
             (toks.filter (removeDrops codemap target)).length)
  | [], toks, h => by
    simp [tokenize] at h
    subst h
    rfl
  | [c], toks, h => by simp [tokenize] at h
  | c :: v :: rest, toks, h => by
    rw [tokenize] at h
    obtain ⟨ts, hts, rfl⟩ := Option.map_eq_some'.mp h
    have ih := removeLoop_spec codemap sd ld target rest ts hts
    rw [removeLoop, ih]
    by_cases hc : (c == sd || c == ld) = true
    · rw [if_pos hc, if_pos hc]
      have hdel : removeDrops codemap target (Token.delay c v) = false := rfl
      simp [List.filter_cons, hdel, tokensBytes, tokBytes, Except.map]
    · rw [if_neg hc, if_neg hc]
      by_cases hidx : codemap.length ≤ (c &&& 0x7F)
      · rw [if_pos hidx]
        have hkeep : removeDrops codemap target (Token.write c v) = false := by
          show (decide ((c &&& 0x7F) < codemap.length) &&
            (get_channel_from_reg ((c >>> 7) &&& 1) (codemap.getD (c &&& 0x7F) 0) == target))
              = false
          rw [decide_eq_false (Nat.not_lt.mpr hidx)]
          rfl
        simp [List.filter_cons, hkeep, tokensBytes, tokBytes, Except.map]
      · rw [if_neg hidx]
        cases hch : (get_channel_from_reg ((c >>> 7) &&& 1) (codemap.getD (c &&& 0x7F) 0)
            == target) with
        | true =>
          have hdrop : removeDrops codemap target (Token.write c v) = true := by
            show (decide ((c &&& 0x7F) < codemap.length) &&
              (get_channel_from_reg ((c >>> 7) &&& 1) (codemap.getD (c &&& 0x7F) 0) == target))
                = true
            rw [hch, decide_eq_true (Nat.lt_of_not_le hidx)]
            rfl
          simp [List.filter_cons, hdrop, Except.map]
        | false =>
          have hkeep : removeDrops codemap target (Token.write c v) = false := by
            show (decide ((c &&& 0x7F) < codemap.length) &&
              (get_channel_from_reg ((c >>> 7) &&& 1) (codemap.getD (c &&& 0x7F) 0) == target))
                = false
            rw [hch, Bool.and_false]
          simp [List.filter_cons, hkeep, tokensBytes, tokBytes, Except.map]

/-- The Isolate stream loop equals filtering the decoded tokens with
`isolateKeeps` and counting the dropped ones. -/
theorem isolateLoop_spec (codemap : List Nat) (sd ld : Nat) (target : Int) :
    ∀ (rest : List Nat) (toks : List Token), tokenize sd ld rest = some toks →
      isolateLoop codemap sd ld target rest =
        .ok (tokensBytes (toks.filter (isolateKeeps codemap target)),
             (toks.filter fun t => ! isolateKeeps codemap target t).length)
  | [], toks, h => by
    simp [tokenize] at h
    subst h
    rfl
  | [c], toks, h => by simp [tokenize] at h
  | c :: v :: rest, toks, h => by
    rw [tokenize] at h
    obtain ⟨ts, hts, rfl⟩ := Option.map_eq_some'.mp h
    have ih := isolateLoop_spec codemap sd ld target rest ts hts
    rw [isolateLoop, ih]
    by_cases hc : (c == sd || c == ld) = true
    · rw [if_pos hc, if_pos hc]
      have hdel : isolateKeeps codemap target (Token.delay c v) = true := rfl
      simp [List.filter_cons, hdel, tokensBytes, tokBytes, Except.map]
    · rw [if_neg hc, if_neg hc]
      by_cases hidx : codemap.length ≤ (c &&& 0x7F)
      · rw [if_pos hidx]
        have hkeep : isolateKeeps codemap target (Token.write c v) = true := by
          show (if codemap.length ≤ (c &&& 0x7F) then true
            else codemap.getD (c &&& 0x7F) 0 == 0xBD ||
              get_channel_from_reg ((c >>> 7) &&& 1) (codemap.getD (c &&& 0x7F) 0) == target ||
              get_channel_from_reg ((c >>> 7) &&& 1) (codemap.getD (c &&& 0x7F) 0) == -1) = true
          rw [if_pos hidx]
        simp [List.filter_cons, hkeep, tokensBytes, tokBytes, Except.map]
      · rw [if_neg hidx]
        by_cases hbd : (codemap.getD (c &&& 0x7F) 0 == 0xBD) = true
        · rw [if_pos hbd]
          have hkeep : isolateKeeps codemap target (Token.write c v) = true := by
            show (if codemap.length ≤ (c &&& 0x7F) then true
              else codemap.getD (c &&& 0x7F) 0 == 0xBD ||
                get_channel_from_reg ((c >>> 7) &&& 1) (codemap.getD (c &&& 0x7F) 0) == target ||
                get_channel_from_reg ((c >>> 7) &&& 1) (codemap.getD (c &&& 0x7F) 0) == -1) = true
            rw [if_neg hidx, hbd, Bool.true_or, Bool.true_or]
          simp [List.filter_cons, hkeep, tokensBytes, tokBytes, Except.map]
        · have hbdf : (codemap.getD (c &&& 0x7F) 0 == 0xBD) = false :=
            Bool.eq_false_iff.mpr fun hb => hbd hb
          rw [if_neg hbd]
          cases hch : (get_channel_from_reg ((c >>> 7) &&& 1) (codemap.getD (c &&& 0x7F) 0)
              == target ||
            get_channel_from_reg ((c >>> 7) &&& 1) (codemap.getD (c &&& 0x7F) 0) == -1) with
          | true =>
            have hkeep : isolateKeeps codemap target (Token.write c v) = true := by
              show (if codemap.length ≤ (c &&& 0x7F) then true
                else codemap.getD (c &&& 0x7F) 0 == 0xBD ||
                  get_channel_from_reg ((c >>> 7) &&& 1) (codemap.getD (c &&& 0x7F) 0) == target ||
                  get_channel_from_reg ((c >>> 7) &&& 1) (codemap.getD (c &&& 0x7F) 0) == -1)
                    = true
              rw [if_neg hidx, hbdf, Bool.false_or, hch]
            simp [List.filter_cons, hkeep, tokensBytes, tokBytes, Except.map]
          | false =>
            have hdrop : isolateKeeps codemap target (Token.write c v) = false := by
              show (if codemap.length ≤ (c &&& 0x7F) then true
                else codemap.getD (c &&& 0x7F) 0 == 0xBD ||
                  get_channel_from_reg ((c >>> 7) &&& 1) (codemap.getD (c &&& 0x7F) 0) == target ||
                  get_channel_from_reg ((c >>> 7) &&& 1) (codemap.getD (c &&& 0x7F) 0) == -1)
                    = false
              rw [if_neg hidx, hbdf, Bool.false_or, hch]
            simp [List.filter_cons, hdrop, tokensBytes, tokBytes, Except.map]

/-- C3: on a valid DRO v2 input whose stream decodes to whole tokens,
Remove(target) keeps every delay token, keeps every write token with an
out-of-range codemap index unchanged, drops a write exactly when its
classified channel equals the target, and reports the number of dropped
tokens: the output is the header plus the bytes of the kept tokens and
the count is the number of tokens satisfying `removeDrops`. -/
theorem remove_channel_filters (data : List Nat) (target : Int) (toks : List Token)
    (hmagic : data.take 8 = magic) (hver : verOf data = 2) (hlen : 26 ≤ data.length)
    (htok : tokenize (data.getD 23 0) (data.getD 24 0)
      (data.drop (26 + data.getD 25 0)) = some toks) :
    remove_channel data target =
      .ok (data.take (26 + data.getD 25 0) ++
            tokensBytes (toks.filter fun t =>
              ! removeDrops ((data.drop 26).take (data.getD 25 0)) target t),
           (toks.filter (removeDrops ((data.drop 26).take (data.getD 25 0)) target)).length) := by
  unfold remove_channel
  rw [if_neg (by simp [hmagic]), if_neg (by omega), if_neg (by simp [hver]),
    if_neg (by omega), removeLoop_spec _ _ _ _ _ toks htok]
  rfl

theorem remove_channel_filters_w :
    remove_channel sampleFile 0 = .ok (sampleFile.take 27 ++ [0xFF, 0x09], 1) :=
  remove_channel_filters sampleFile 0 [Token.write 0x00 0x30, Token.delay 0xFF 0x09]
    (by decide) (by decide) (by decide) (by decide)

/-- C6: on a valid DRO v2 input none of whose decoded tokens is a register
write classified to the target channel (with in-range codemap index),
Remove(target) returns the input bytes unchanged, with dropped count 0. -/
theorem remove_channel_noop (data : List Nat) (target : Int) (toks : List Token)
    (hmagic : data.take 8 = magic) (hver : verOf data = 2) (hlen : 26 ≤ data.length)
    (htok : tokenize (data.getD 23 0) (data.getD 24 0)
      (data.drop (26 + data.getD 25 0)) = some toks)
    (hnone : ∀ t ∈ toks, removeDrops ((data.drop 26).take (data.getD 25 0)) target t = false) :
    remove_channel data target = .ok (data, 0) := by
  unfold remove_channel
  rw [if_neg (by simp [hmagic]), if_neg (by omega), if_neg (by simp [hver]),
    if_neg (by omega), removeLoop_spec _ _ _ _ _ toks htok]
  have h1 : toks.filter
      (fun t => ! removeDrops ((data.drop 26).take (data.getD 25 0)) target t) = toks :=
    List.filter_eq_self.mpr fun a ha => by rw [hnone a ha]; rfl
  have h2 : toks.filter (removeDrops ((data.drop 26).take (data.getD 25 0)) target) = [] :=
    List.filter_eq_nil_iff.mpr fun a ha h => by
      rw [hnone a ha] at h
      exact Bool.false_ne_true h
  rw [h1, h2, tokenize_bytes _ _ _ toks htok]
  simp [Except.map, List.take_append_drop]

theorem remove_channel_noop_w : remove_channel sampleFile 5 = .ok (sampleFile, 0) :=
  remove_channel_noop sampleFile 5 [Token.write 0x00 0x30, Token.delay 0xFF 0x09]
    (by decide) (by decide) (by decide) (by decide) (by decide)

/-- C4: the classifier maps register 0xBD to the global sentinel for every
bank; the Isolate keep-policy keeps every resolved write to register 0xBD
whatever the target; and on a valid DRO v2 input Isolate(target) keeps a
token exactly when `isolateKeeps` holds: it is a delay, or its index is
out of range, or its register is 0xBD, or its channel equals the target,
or its channel is the global sentinel — and it drops and counts the rest. -/
theorem isolate_policy :
    (∀ bank : Nat, get_channel_from_reg bank 0xBD = -1) ∧
    (∀ (codemap : List Nat) (target : Int) (c v : Nat),
      (c &&& 0x7F) < codemap.length → codemap.getD (c &&& 0x7F) 0 = 0xBD →
      isolateKeeps codemap target (Token.write c v) = true) ∧
    (∀ (data : List Nat) (target : Int) (toks : List Token),
      data.take 8 = magic → verOf data = 2 → 26 ≤ data.length →
      tokenize (data.getD 23 0) (data.getD 24 0)
        (data.drop (26 + data.getD 25 0)) = some toks →
      isolate_channel data target =
        .ok (data.take (26 + data.getD 25 0) ++
              tokensBytes
                (toks.filter (isolateKeeps ((data.drop 26).take (data.getD 25 0)) target)),
             (toks.filter fun t =>
               ! isolateKeeps ((data.drop 26).take (data.getD 25 0)) target t).length)) := by
  refine ⟨fun bank => rfl, fun codemap target c v h1 h2 => ?_, fun data target toks hm hv hl ht => ?_⟩
  · show (if codemap.length ≤ (c &&& 0x7F) then true
      else codemap.getD (c &&& 0x7F) 0 == 0xBD ||
        get_channel_from_reg ((c >>> 7) &&& 1) (codemap.getD (c &&& 0x7F) 0) == target ||
        get_channel_from_reg ((c >>> 7) &&& 1) (codemap.getD (c &&& 0x7F) 0) == -1) = true
    rw [if_neg (Nat.not_le.mpr h1), h2]
    rfl
  · unfold isolate_channel
    rw [if_neg (by simp [hm]), if_neg (by omega), if_neg (by simp [hv]),
      if_neg (by omega), isolateLoop_spec _ _ _ _ _ toks ht]
    rfl

theorem isolate_policy_w :
    get_channel_from_reg 0 0xBD = -1 ∧
    isolateKeeps [0xBD] 3 (Token.write 0 7) = true ∧
    isolate_channel sampleFile 3 = .ok (sampleFile.take 27 ++ [0xFF, 0x09], 1) :=
  ⟨isolate_policy.1 0,
   isolate_policy.2.1 [0xBD] 3 0 7 (by decide) (by decide),
   isolate_policy.2.2 sampleFile 3 [Token.write 0x00 0x30, Token.delay 0xFF 0x09]
     (by decide) (by decide) (by decide) (by decide)⟩

/-- C5 counterexample: on a file whose command stream ends in a lone
trailing byte, the Remove and Isolate filters do not stop cleanly — they
fail with an index error (the Python loop reads past the end of the
buffer) and produce no output, contradicting the claim that every stream
processor silently ignores truncated trailing data. -/
theorem truncated_token_filters_error :
    remove_channel loneFile 0 = .error DroErr.indexError ∧
    isolate_channel loneFile 0 = .error DroErr.indexError := ⟨rfl, rfl⟩

/-- C5 amended: when a lone byte remains at the start of a token, the
Dumper stops decoding cleanly (no further record, state returned as is),
but the Remove and Isolate stream loops fail with an index error instead
of stopping silently. -/
theorem truncated_token_behavior (codemap : List Nat) (sd ld : Nat) (target : Int)
    (i time c : Nat) :
    dumpLoop codemap sd ld i time [c] = ([], time) ∧
    removeLoop codemap sd ld target [c] = .error DroErr.indexError ∧
    isolateLoop codemap sd ld target [c] = .error DroErr.indexError :=
  ⟨rfl, rfl, rfl⟩

/-- C7 counterexample: with semitones = 0 the pitch-shift calculation is
not the identity on every byte pair: on (f_low, combined) = (0x01, 0x04)
(f-number 1, block 1) the second normalization loop doubles the f-number
and lowers the block, returning (0x02, 0x00). -/
theorem calc_shift_zero_not_identity : calc_shift0 0x01 0x04 ≠ (0x01, 0x04) := by decide

/-- C7 amended: with semitones = 0 the pitch-shift calculation returns the
original pair unchanged for every pair whose combined byte has bits 6 and
7 clear (the code drops them on repacking) and whose encoded state is
already normalized: f-number at least 512, or block 0. -/
theorem calc_shift_zero_identity :
    ∀ a0 < 256, ∀ b0 < 64,
      (512 ≤ ((b0 &&& 0x03) <<< 8 ||| a0) ∨ (b0 &&& 0x1C) >>> 2 = 0) →
      calc_shift0 a0 b0 = (a0, b0) := by decide

theorem calc_shift_zero_identity_w : calc_shift0 0xE2 0x32 = (0xE2, 0x32) :=
  calc_shift_zero_identity 0xE2 (by decide) 0x32 (by decide) (by decide)

/-- C8 counterexample: a 26-byte buffer with valid magic and version whose
declared codemap length is 5 is shorter than the codemap-end offset 31,
yet `remove_channel` does not fail with a Truncated error: the slices
clamp, the stream is empty, and it produces output (the input copied)
with dropped count 0. -/
theorem header_no_truncated_check : remove_channel truncFile 0 = .ok (truncFile, 0) := rfl

/-- C8 amended: header parsing fails with BadMagic when the first 8 bytes
differ from the magic tag, and with UnsupportedVersion when the
little-endian 16-bit major version at offset 8 is not 2 (given the 10
bytes that read needs), in both cases producing no output; but there is no
Truncated failure: a buffer that is at least 26 bytes yet shorter than the
codemap-end offset 26 + codemap length is processed with the codemap
clamped and an empty stream, returning the buffer unchanged as output. -/
theorem header_error_policy (data : List Nat) (target : Int) :
    (data.take 8 ≠ magic → remove_channel data target = .error DroErr.badMagic) ∧
    (data.take 8 = magic → 10 ≤ data.length → verOf data ≠ 2 →
      remove_channel data target = .error DroErr.unsupportedVersion) ∧
    (data.take 8 = magic → verOf data = 2 → 26 ≤ data.length →
      data.length < 26 + data.getD 25 0 →
      remove_channel data target = .ok (data, 0)) := by
  refine ⟨fun h => ?_, fun h1 h2 h3 => ?_, fun h1 h2 h3 h4 => ?_⟩
  · unfold remove_channel
    rw [if_pos h]
  · unfold remove_channel
    rw [if_neg (by simp [h1]), if_neg (by omega), if_pos h3]
  · unfold remove_channel
    rw [if_neg (by simp [h1]), if_neg (by omega), if_neg (by simp [h2]), if_neg (by omega)]
    have hdropn : data.drop (26 + data.getD 25 0) = [] := List.drop_eq_nil_of_le (by omega)
    have htake : data.take (26 + data.getD 25 0) = data :=
      List.take_of_length_le (Nat.le_of_lt h4)
    rw [hdropn, htake]
    simp [removeLoop, Except.map]

theorem header_error_policy_w :
    remove_channel [0x00] 0 = .error DroErr.badMagic ∧
    remove_channel badVerFile 0 = .error DroErr.unsupportedVersion ∧
    remove_channel truncFile2 0 = .ok (truncFile2, 0) :=
  ⟨(header_error_policy [0x00] 0).1 (by decide),
   (header_error_policy badVerFile 0).2.1 (by decide) (by decide) (by decide),
   (header_error_policy truncFile2 0).2.2 (by decide) (by decide) (by decide) (by decide)⟩

/-- C9 counterexample: on the file of the specification scenario, with
short-delay opcode 0x00 and long-delay opcode 0x01, the write pair
(0x00, 0x30) is decoded as a short delay because the delay check matches
the opcode first; the Dumper reports no register-write record at all and
the accumulated time ends at 0x31 + 0x0A = 59, contradicting the claimed
note-start record and final time 10. -/
theorem dump_sample_delay_shadow : dump_dro shadowFile = .ok ([], 59) := rfl

/-- C9 amended: on the same scenario with delay opcodes that do not
collide with the write code byte (short 0xFF, long 0xFE), the Dumper
reports exactly one record for the write token: byte offset 27, time 0,
bank 0, register 0xB0, value 0x30, key-on true with block 4 and f-high 0
and the note-start marker; the following short delay of raw value 9 then
advances the accumulated time to 10. -/
theorem dump_sample_report :
    dump_dro sampleFile =
      .ok ([⟨27, 0, 0, 0xB0, 0x30, DumpDesc.chB 0 true 4 0 true⟩], 10) := rfl
